import Mathlib

/-!
Shallow embedding of the render consumer in src/gui/game.rs: the command
dispatch loop (Game::render_game), the render-target caches, the MVP uniform
table (MvpPacked), the view selector transition (Game::update), and the
ViewMode::Game display path with its raw framebuffer decoder (Game::render).

Machine integers are modelled as Nat with explicit reductions mod 2^32 or
2^8 where the Rust code casts or can wrap.  Floating-point payloads
(vertex positions, matrices, clear colors, viewport parameters) are carried
opaquely (as counts or uninterpreted data), since no claim depends on their
values.  GPU side effects are recorded in an explicit effect list.
-/

namespace N64Render

/-- 32-bit wrapping subtraction, the behaviour of Rust u32 subtraction in
release builds; used to model the expression video_buffer - 640 in
Game::render. -/
def u32_wsub (a b : Nat) : Nat :=
  (a % 2 ^ 32 + (2 ^ 32 - b % 2 ^ 32)) % 2 ^ 32

/-- MvpPacked::size(): size_of of [f32; 16] plus size_of of [u64; 24],
that is 64 + 192 bytes. -/
def MvpPacked.size : Nat := 4 * 16 + 8 * 24

/-- MvpPacked::offset_of(index): (index * Self::size()) as wgpu::DynamicOffset.
DynamicOffset is u32, hence the reduction mod 2^32 on the cast. -/
def MvpPacked.offset_of (index : Nat) : Nat :=
  (index * MvpPacked.size) % 2 ^ 32

/-- One format-2 pixel of the raw decode in Game::render:
shift = 16 - ((i & 1) << 4); pix = (word >> shift) as u16;
r, g, b are 5-bit fields, a the low bit; the output bytes are each channel
shifted left by 3 (u8 arithmetic), and the alpha byte is 0 when a == 1,
otherwise 255. -/
def decode_pixel_16 (word i : Nat) : List Nat :=
  let shift := 16 - i % 2 * 16
  let pix := (word >>> shift) % 2 ^ 16
  let r := (pix >>> 11) % 32
  let g := (pix >>> 6) % 32
  let b := (pix >>> 1) % 32
  let a := pix % 2
  [r * 8 % 256, g * 8 % 256, b * 8 % 256, if a = 1 then 0 else 255]

/-- One format-3 pixel of the raw decode: (rdram[start + i] | 0xff) in
big-endian byte order. -/
def decode_pixel_32 (word : Nat) : List Nat :=
  let pix := word ||| 0xff
  [(pix >>> 24) % 256, (pix >>> 16) % 256, (pix >>> 8) % 256, pix % 256]

/-- image_data[i*4..][..4].copy_from_slice(bytes): write four bytes at a
byte offset into the pixel buffer. -/
def write4 (data : List Nat) (off : Nat) (b : List Nat) : List Nat :=
  ((((data.set off (b.getD 0 0)).set (off + 1) (b.getD 1 0)).set
      (off + 2) (b.getD 2 0)).set (off + 3) (b.getD 3 0))

/-- The pixel fill loop of Game::render (for i in 0..width*height) with the
match on format inside the loop body; a format other than 2 and 3 breaks out
of the loop, leaving the rest of the zero-initialized buffer untouched.
The recursion counts the remaining iterations. -/
def image_data_go (format : Nat) (mem : Nat → Nat) (start : Nat) :
    Nat → Nat → List Nat → List Nat
  | _, 0, data => data
  | i, r + 1, data =>
    if format = 2 then
      image_data_go format mem start (i + 1) r
        (write4 data (i * 4) (decode_pixel_16 (mem (start + i / 2)) i))
    else if format = 3 then
      image_data_go format mem start (i + 1) r
        (write4 data (i * 4) (decode_pixel_32 (mem (start + i))))
    else
      data

/-- let mut image_data = vec![0u8; width*height*4] followed by the fill
loop; mem is the RDRAM word array, start = video_buffer >> 2. -/
def image_data (format : Nat) (mem : Nat → Nat) (start width height : Nat) :
    List Nat :=
  image_data_go format mem start 0 (width * height)
    (List.replicate (width * height * 4) 0)

/-- Outcome of the ViewMode::Game arm of Game::render: an early return with
no draw, a draw from a cached color bind group, or the raw-RDRAM fallback
draw carrying the texture upload payload (some buffer exactly when the RDRAM
lock yielded a readable buffer; the write_texture call is unconditional once
inside the fallback). -/
inductive GameDraw
  | skip
  | drawCached (addr : Nat)
  | drawRaw (upload : Option (List Nat))
  deriving DecidableEq

/-- The ViewMode::Game arm of Game::render: read VI_ORIGIN (V) and return
early when it is 0; otherwise prefer the bind group cached exactly at V,
then the one cached at V - 640 (u32 subtraction, no guard against V < 640);
otherwise derive the height from the width (320 to 240, 640 to 480, any
other width warns and returns early) and decode RDRAM into the staging
texture, uploading the decoded buffer when RDRAM is readable. -/
def render_game_view (colorBindGroups : List Nat) (V width format : Nat)
    (rdram : Option (Nat → Nat)) : GameDraw :=
  if V = 0 then .skip
  else if V ∈ colorBindGroups then .drawCached V
  else if u32_wsub V 640 ∈ colorBindGroups then .drawCached (u32_wsub V 640)
  else
    match (if width = 320 then some 240
           else if width = 640 then some 480
           else none : Option Nat) with
    | none => .skip
    | some height =>
      .drawRaw (rdram.map fun mem => image_data format mem (V / 4) width height)

/-- DrawList entries of an HleRenderCommand::RenderPass. -/
structure DrawEntry where
  start_index : Nat
  num_indices : Nat
  matrix_index : Nat
  deriving DecidableEq

/-- The RenderPass payload.  clear_color is the f32 RGBA payload, carried
opaquely; only its presence matters to the dispatcher. -/
structure RenderPassCmd where
  color_buffer : Option Nat
  depth_buffer : Option Nat
  clear_color : Option (List Nat)
  clear_depth : Bool
  draw_list : List DrawEntry
  deriving DecidableEq

/-- The HleRenderCommand variants consumed by Game::render_game.  Vertex and
matrix payloads are f32 data, modelled by their element counts; viewport
parameters are carried opaquely. -/
inductive Cmd
  | defineColorImage (addr : Nat)
  | defineDepthImage (addr : Nat)
  | viewport (data : Nat)
  | vertexData (n : Nat)
  | indexData (idx : List Nat)
  | matrixData (n : Nat)
  | renderPass (rp : RenderPassCmd)
  | sync
  | noop
  deriving DecidableEq

/-- The fields of Game mutated by the dispatcher.  The texture and bind-group
HashMaps are modelled by their key lists in insertion order (game_modelview
and game_projection, reset to the identity matrix on Sync, are f32 data and
not modelled). -/
structure GameState where
  colorTextures : List Nat
  colorBindGroups : List Nat
  depthTextures : List Nat
  depthBindGroups : List Nat
  gameViewport : Cmd
  gameFrameCount : Nat
  vertexBufferWrites : Nat
  indexBufferWrites : Nat
  deriving DecidableEq

/-- The initial values set up in Game::create. -/
def GameState.init : GameState where
  colorTextures := []
  colorBindGroups := []
  depthTextures := []
  depthBindGroups := []
  gameViewport := .noop
  gameFrameCount := 0
  vertexBufferWrites := 0
  indexBufferWrites := 0

/-- GPU work and other observable side effects issued by the dispatcher, in
program order.  beginPass records the resolved color address, whether the
color attachment is cleared, and (when a depth target resolved) whether the
depth attachment is cleared; draw records one draw_indexed call and the
dynamic matrix offset bound for it. -/
inductive Effect
  | createColorTarget (addr w h : Nat)
  | createDepthTarget (addr w h : Nat)
  | writeVertexBuffer (n : Nat)
  | writeIndexBuffer (n : Nat)
  | writeMatrixBuffer (n : Nat)
  | beginPass (colorAddr : Nat) (clearColor : Bool) (depthAttachment : Option Bool)
  | draw (firstIndex lastIndex matrixOffset : Nat)
  | warnNoColorTarget
  | interrupt
  deriving DecidableEq

/-- One iteration body of the dispatch loop in Game::render_game: the match
on cmd.  none models the unimplemented! panic on a command outside the
handled set (Noop is the only such variant here).  surfW and surfH are the
surface_config dimensions used to size new targets; hasMi tells whether
comms.mi_interrupts_tx is Some, gating the Sync interrupt send. -/
def dispatch1 (surfW surfH : Nat) (hasMi : Bool) (st : GameState) :
    Cmd → Option (GameState × List Effect)
  | .defineColorImage addr =>
    if addr ∈ st.colorTextures then some (st, [])
    else
      some ({ st with colorTextures := st.colorTextures ++ [addr],
                      colorBindGroups := st.colorBindGroups ++ [addr] },
            [.createColorTarget addr surfW surfH])
  | .defineDepthImage addr =>
    if addr ∈ st.depthTextures then some (st, [])
    else
      some ({ st with depthTextures := st.depthTextures ++ [addr],
                      depthBindGroups := st.depthBindGroups ++ [addr] },
            [.createDepthTarget addr surfW surfH])
  | .viewport d => some ({ st with gameViewport := .viewport d }, [])
  | .vertexData n =>
    some ({ st with vertexBufferWrites := st.vertexBufferWrites + n },
          [.writeVertexBuffer n])
  | .indexData idx => some (st, [.writeIndexBuffer idx.length])
  | .matrixData n => some (st, [.writeMatrixBuffer n])
  | .renderPass rp =>
    if rp.color_buffer.getD 0xFFFFFFFF ∈ st.colorTextures then
      some (st,
        .beginPass (rp.color_buffer.getD 0xFFFFFFFF) rp.clear_color.isSome
            (if rp.depth_buffer.getD 0xFFFFFFFF ∈ st.depthTextures
             then some rp.clear_depth else none) ::
          rp.draw_list.map fun dl =>
            .draw dl.start_index (dl.start_index + dl.num_indices)
              (MvpPacked.offset_of dl.matrix_index))
    else
      some (st, [.warnNoColorTarget])
  | .sync =>
    some ({ st with gameFrameCount := st.gameFrameCount + 1,
                    gameViewport := .noop,
                    vertexBufferWrites := 0, indexBufferWrites := 0 },
          if hasMi then [.interrupt] else [])
  | .noop => none

/-- The dispatch loop of Game::render_game (while let Some(cmd) = try_pop),
run against a snapshot of the queue contents: returns the final state, the
emitted effects in order, and the commands left in the queue.  The break in
the Sync arm is modelled by the test after the factored-out command body;
none models a panic. -/
def render_game (surfW surfH : Nat) (hasMi : Bool) :
    GameState → List Cmd → Option (GameState × List Effect × List Cmd)
  | st, [] => some (st, [], [])
  | st, c :: rest =>
    match dispatch1 surfW surfH hasMi st c with
    | none => none
    | some (st', effs) =>
      if c = Cmd.sync then some (st', effs, rest)
      else
        match render_game surfW surfH hasMi st' rest with
        | none => none
        | some (st'', effs', rem) => some (st'', effs ++ effs', rem)

/-- The diagnostic view modes of Game (ViewMode in game.rs). -/
inductive ViewMode
  | game
  | color (i : Nat)
  | depth (i : Nat)
  deriving DecidableEq

/-- The CTRL+V transition in Game::update, with nColor the size of
game_render_texture_bind_groups and nDepth the size of
game_depth_texture_bind_groups. -/
def cycle_view (m : ViewMode) (nColor nDepth : Nat) : ViewMode :=
  match m with
  | .game =>
    if nColor > 0 then .color 0
    else if nDepth > 0 then .depth 0
    else .game
  | .color i =>
    if nColor > i + 1 then .color (i + 1)
    else if nDepth > 0 then .depth 0
    else .game
  | .depth i =>
    if nDepth > i + 1 then .depth (i + 1)
    else .game

/-- The transition ring exactly as the specification words it (for comparison
against cycle_view): from Game advance to Color 0 if any color entries exist,
else Depth 0 if any depth entries exist, else stay Game; from Color i advance
to Color (i+1) if that index exists, else Depth 0 if any depth entries exist,
else Game; from Depth i advance to Depth (i+1) if that index exists, else
wrap to Game. -/
def cycle_spec_ring (m : ViewMode) (nColor nDepth : Nat) : ViewMode :=
  match m with
  | .game =>
    if 0 < nColor then .color 0
    else if 0 < nDepth then .depth 0
    else .game
  | .color i =>
    if i + 1 < nColor then .color (i + 1)
    else if 0 < nDepth then .depth 0
    else .game
  | .depth i =>
    if i + 1 < nDepth then .depth (i + 1)
    else .game

/-- Membership of a view mode in the set Game plus valid Color and Depth
indices for the given cache sizes. -/
def valid_view : ViewMode → Nat → Nat → Prop
  | .game, _, _ => True
  | .color i, nc, _ => i < nc
  | .depth i, _, nd => i < nd

/-- Claim C7: in the format-2 raw decode, the 32-bit memory word 0xFFFF0000
decoded at pixel parity 0 (shift 16) yields the 16-bit pixel value 0xFFFF,
whose channels decode to r = 31, g = 31, b = 31, a = 1, producing the output
bytes [248, 248, 248, 0]; the full fill loop on a single-pixel frame
reproduces exactly these bytes. -/
theorem format2_pixel_FFFF0000 :
    (0xFFFF0000 >>> (16 - 0 % 2 * 16)) % 2 ^ 16 = 0xFFFF ∧
    (0xFFFF >>> 11) % 32 = 31 ∧ (0xFFFF >>> 6) % 32 = 31 ∧
    (0xFFFF >>> 1) % 32 = 31 ∧ 0xFFFF % 2 = 1 ∧
    decode_pixel_16 0xFFFF0000 0 = [248, 248, 248, 0] ∧
    image_data 2 (fun _ => 0xFFFF0000) 0 1 1 = [248, 248, 248, 0] := by
  refine ⟨by decide, by decide, by decide, by decide, by decide, by decide,
    by decide⟩

/-- Claim C9: for every matrix slot index below 1024 the dynamic-offset
computation returns exactly index * 256 bytes (the 64-byte matrix payload
padded to the 256-byte stride; no u32 truncation occurs in this range). -/
theorem mvp_offset_of_index_lt_1024 (i : Nat) (h : i < 1024) :
    MvpPacked.offset_of i = i * 256 := by
  unfold MvpPacked.offset_of MvpPacked.size
  have h32 : (2 : Nat) ^ 32 = 4294967296 := by norm_num
  rw [h32]
  omega

theorem mvp_offset_of_index_lt_1024_witness :
    MvpPacked.offset_of 7 = 7 * 256 :=
  mvp_offset_of_index_lt_1024 7 (by norm_num)

/-- Claim C6: the view-selector cycle is a total function that agrees with
the specified ring, and from every current state and every cache population
the successor lies in Game plus the valid Color and Depth indices. -/
theorem cycle_view_matches_ring_and_valid (m : ViewMode) (nColor nDepth : Nat) :
    cycle_view m nColor nDepth = cycle_spec_ring m nColor nDepth ∧
    valid_view (cycle_view m nColor nDepth) nColor nDepth := by
  constructor
  · cases m <;> rfl
  · cases m <;> simp only [cycle_view] <;> repeat' split
    all_goals simp_all [valid_view]

/-- Claim C4: the display path computes video_buffer - 640 as u32
subtraction with no guard that the pointer is at least 640: the wrapped
result agrees with the mathematical difference exactly when V is at least
640, and for every pointer V with 0 < V < 640 it underflows (the result
exceeds V); whenever the exact key misses, that wrapped value is the key the
bind-group cache is consulted with. -/
theorem video_pointer_offset_underflow (V : Nat) (hV : V < 2 ^ 32) :
    (640 ≤ V → u32_wsub V 640 = V - 640) ∧
    (0 < V → V < 640 →
      u32_wsub V 640 = V + (2 ^ 32 - 640) ∧ V < u32_wsub V 640) ∧
    (∀ (cache : List Nat) (w format : Nat) (rdram : Option (Nat → Nat)),
      V ∉ cache → V ≠ 0 →
      (render_game_view cache V w format rdram
          = GameDraw.drawCached (u32_wsub V 640) ↔ u32_wsub V 640 ∈ cache)) := by
  have he : u32_wsub V 640 = (V + (2 ^ 32 - 640)) % 2 ^ 32 := by
    unfold u32_wsub
    rw [Nat.mod_eq_of_lt hV]
    norm_num
  refine ⟨?_, ?_, ?_⟩
  · intro h640
    have : V + (2 ^ 32 - 640) = V - 640 + 2 ^ 32 := by omega
    rw [he, this, Nat.add_mod_right]
    exact Nat.mod_eq_of_lt (by omega)
  · intro h0 hlt
    have hsmall : V + (2 ^ 32 - 640) < 2 ^ 32 := by omega
    rw [he, Nat.mod_eq_of_lt hsmall]
    exact ⟨rfl, by omega⟩
  · intro cache w format rdram hc h0
    constructor
    · intro heq
      by_cases hk : u32_wsub V 640 ∈ cache
      · exact hk
      · exfalso
        simp only [render_game_view, if_neg h0, if_neg hc, if_neg hk] at heq
        split at heq <;> simp at heq
    · intro hk
      simp [render_game_view, h0, hc, hk]

theorem video_pointer_offset_underflow_witness :
    u32_wsub 100 640 = 100 + (2 ^ 32 - 640) ∧ 100 < u32_wsub 100 640 :=
  (video_pointer_offset_underflow 100 (by norm_num)).2.1
    (by norm_num) (by norm_num)

/-- Claim C3: with Game view active and a nonzero video pointer V, the
display path selects the cached color entry at exactly V when present;
otherwise, when V - 640 (u32) is cached it selects that entry (and hence
does not decode raw memory); raw framebuffer decoding happens only when
neither key is cached. -/
theorem video_pointer_resolution (cache : List Nat) (V w format : Nat)
    (rdram : Option (Nat → Nat)) (hV : V ≠ 0) :
    (V ∈ cache →
      render_game_view cache V w format rdram = GameDraw.drawCached V) ∧
    (V ∉ cache → u32_wsub V 640 ∈ cache →
      render_game_view cache V w format rdram
        = GameDraw.drawCached (u32_wsub V 640)) ∧
    (V ∉ cache → u32_wsub V 640 ∉ cache → w = 320 →
      render_game_view cache V w format rdram
        = GameDraw.drawRaw
            (rdram.map fun mem => image_data format mem (V / 4) 320 240)) := by
  refine ⟨fun h => by simp [render_game_view, hV, h],
          fun h1 h2 => by simp [render_game_view, hV, h1, h2],
          fun h1 h2 hw => ?_⟩
  subst hw
  simp [render_game_view, hV, h1, h2]

theorem video_pointer_resolution_witness :
    render_game_view [1024] 1664 320 7 none
      = GameDraw.drawCached (u32_wsub 1664 640) :=
  (video_pointer_resolution [1024] 1664 320 7 none (by decide)).2.1
    (by decide) (by decide)

/-- A format other than 2 and 3 breaks out of the fill loop at its first
iteration: no bytes of the buffer are overwritten. -/
theorem image_data_go_unknown_format (format : Nat) (mem : Nat → Nat)
    (start i r : Nat) (data : List Nat) (h2 : format ≠ 2) (h3 : format ≠ 3) :
    image_data_go format mem start i r data = data := by
  cases r with
  | zero => rfl
  | succ r => simp [image_data_go, h2, h3]

/-- Claim C1, counterexample: with format 5 (neither 2 nor 3), pointer
0x00100000, width 320, an empty bind-group cache and readable RDRAM, the
Game-view raw fallback still uploads a pixel buffer (the zero-initialized
one) to the staging texture, so new pixel data is written and the previous
contents do not persist. -/
theorem raw_unknown_format_still_uploads :
    render_game_view [] 0x00100000 320 5 (some fun _ => 0)
      = GameDraw.drawRaw (some (List.replicate 307200 0)) ∧
    (some (List.replicate 307200 0) : Option (List Nat)) ≠ none :=
  ⟨rfl, Option.some_ne_none _⟩

/-- Claim C1, amended: for every format code other than 2 and 3, the
per-pixel decode loop is aborted at the first pixel, so no memory-derived
pixel data is produced; but when RDRAM is readable the zero-initialized
buffer is still uploaded to the staging texture, overwriting the previous
frame with zero bytes rather than leaving it unchanged. -/
theorem raw_unknown_format_uploads_zero_buffer (format V : Nat)
    (cache : List Nat) (mem : Nat → Nat) (h2 : format ≠ 2) (h3 : format ≠ 3)
    (hV : V ≠ 0) (hc1 : V ∉ cache) (hc2 : u32_wsub V 640 ∉ cache) :
    render_game_view cache V 320 format (some mem)
      = GameDraw.drawRaw (some (List.replicate (320 * 240 * 4) 0)) ∧
    render_game_view cache V 640 format (some mem)
      = GameDraw.drawRaw (some (List.replicate (640 * 480 * 4) 0)) := by
  have h320 : image_data format mem (V / 4) 320 240
      = List.replicate (320 * 240 * 4) 0 :=
    image_data_go_unknown_format format mem (V / 4) 0 (320 * 240) _ h2 h3
  have h640 : image_data format mem (V / 4) 640 480
      = List.replicate (640 * 480 * 4) 0 :=
    image_data_go_unknown_format format mem (V / 4) 0 (640 * 480) _ h2 h3
  constructor
  · simp only [render_game_view, if_neg hV, if_neg hc1, if_neg hc2]
    exact congrArg (fun l => GameDraw.drawRaw (some l)) h320
  · simp only [render_game_view, if_neg hV, if_neg hc1, if_neg hc2]
    exact congrArg (fun l => GameDraw.drawRaw (some l)) h640

theorem raw_unknown_format_uploads_zero_buffer_witness :
    render_game_view [] 2048 320 9 (some fun _ => 7)
      = GameDraw.drawRaw (some (List.replicate (320 * 240 * 4) 0)) :=
  (raw_unknown_format_uploads_zero_buffer 9 2048 [] (fun _ => 7)
    (by decide) (by decide) (by decide) (by simp) (by simp)).1

/-- Every command of the handled set (everything except Noop) dispatches
without hitting the unimplemented panic. -/
theorem dispatch1_total (surfW surfH : Nat) (hasMi : Bool) (st : GameState)
    (c : Cmd) (h : c ≠ Cmd.noop) :
    ∃ st' effs, dispatch1 surfW surfH hasMi st c = some (st', effs) := by
  cases c
  case noop => exact absurd rfl h
  all_goals
    simp only [dispatch1]
    first
      | exact ⟨_, _, rfl⟩
      | (split <;> exact ⟨_, _, rfl⟩)

/-- Unfolding the dispatch loop one step once the head command's dispatch
result is known. -/
theorem render_game_cons_of_dispatch (surfW surfH : Nat) (hasMi : Bool)
    (st : GameState) (c : Cmd) (st1 : GameState) (effs1 : List Effect)
    (rest : List Cmd)
    (hd : dispatch1 surfW surfH hasMi st c = some (st1, effs1)) :
    render_game surfW surfH hasMi st (c :: rest)
      = if c = Cmd.sync then some (st1, effs1, rest)
        else
          match render_game surfW surfH hasMi st1 rest with
          | none => none
          | some (st2, effs2, rem) => some (st2, effs1 ++ effs2, rem) := by
  simp only [render_game, hd]

/-- Claim C2: on a render tick the dispatcher pops queued commands and
applies them in order, stopping exactly when the queue is empty or a Sync
command has just been processed; commands queued after that Sync are left
untouched for the next tick, and on an empty queue the tick performs no GPU
work and returns with the state unchanged. -/
theorem dispatcher_stops_at_first_sync (surfW surfH : Nat) (hasMi : Bool)
    (st : GameState) (pre post : List Cmd)
    (hns : ∀ c ∈ pre, c ≠ Cmd.sync) (hok : ∀ c ∈ pre, c ≠ Cmd.noop) :
    render_game surfW surfH hasMi st [] = some (st, [], []) ∧
    ∃ st' effs, render_game surfW surfH hasMi st (pre ++ Cmd.sync :: post)
      = some (st', effs, post) := by
  refine ⟨rfl, ?_⟩
  revert hns hok
  induction pre generalizing st with
  | nil =>
    intro hns hok
    exact ⟨_, _, rfl⟩
  | cons c pre ih =>
    intro hns hok
    obtain ⟨st1, effs1, hd⟩ :=
      dispatch1_total surfW surfH hasMi st c (hok c (List.mem_cons_self c pre))
    obtain ⟨st2, effs2, hrec⟩ := ih st1
      (fun x hx => hns x (List.mem_cons_of_mem c hx))
      (fun x hx => hok x (List.mem_cons_of_mem c hx))
    refine ⟨st2, effs1 ++ effs2, ?_⟩
    rw [List.cons_append,
        render_game_cons_of_dispatch surfW surfH hasMi st c st1 effs1 _ hd,
        if_neg (hns c (List.mem_cons_self c pre)), hrec]

theorem dispatcher_stops_at_first_sync_witness :
    render_game 640 480 true GameState.init [] = some (GameState.init, [], []) ∧
    ∃ st' effs, render_game 640 480 true GameState.init
        ([Cmd.defineColorImage 4096, Cmd.vertexData 3]
          ++ Cmd.sync :: [Cmd.indexData [1, 2]])
      = some (st', effs, [Cmd.indexData [1, 2]]) :=
  dispatcher_stops_at_first_sync 640 480 true GameState.init
    [Cmd.defineColorImage 4096, Cmd.vertexData 3] [Cmd.indexData [1, 2]]
    (by intro c hc; fin_cases hc <;> simp)
    (by intro c hc; fin_cases hc <;> simp)

/-- Claim C5: a RenderPass whose resolved color address (the supplied
address, or the sentinel 0xFFFFFFFF when absent) has no entry in the color
render-target cache is skipped entirely: only a warning effect is emitted,
no begin-pass and no draw, the state is unchanged, and the dispatcher
continues with the rest of the queue rather than terminating. -/
theorem render_pass_missing_color_skipped (surfW surfH : Nat) (hasMi : Bool)
    (st : GameState) (rp : RenderPassCmd) (rest : List Cmd)
    (h : rp.color_buffer.getD 0xFFFFFFFF ∉ st.colorTextures) :
    dispatch1 surfW surfH hasMi st (Cmd.renderPass rp)
      = some (st, [Effect.warnNoColorTarget]) ∧
    render_game surfW surfH hasMi st (Cmd.renderPass rp :: rest)
      = (render_game surfW surfH hasMi st rest).map
          (fun r => (r.1, Effect.warnNoColorTarget :: r.2.1, r.2.2)) := by
  have hd : dispatch1 surfW surfH hasMi st (Cmd.renderPass rp)
      = some (st, [Effect.warnNoColorTarget]) := by
    simp only [dispatch1, if_neg h]
  refine ⟨hd, ?_⟩
  rw [render_game_cons_of_dispatch surfW surfH hasMi st _ st
        [Effect.warnNoColorTarget] rest hd,
      if_neg (show Cmd.renderPass rp ≠ Cmd.sync by simp)]
  cases hrec : render_game surfW surfH hasMi st rest with
  | none => rfl
  | some r =>
    obtain ⟨st2, effs2, rem2⟩ := r
    rfl

theorem render_pass_missing_color_skipped_witness :
    dispatch1 640 480 false GameState.init
        (Cmd.renderPass ⟨none, none, none, false, []⟩)
      = some (GameState.init, [Effect.warnNoColorTarget]) ∧
    render_game 640 480 false GameState.init
        (Cmd.renderPass ⟨none, none, none, false, []⟩ :: [])
      = (render_game 640 480 false GameState.init []).map
          (fun r => (r.1, Effect.warnNoColorTarget :: r.2.1, r.2.2)) :=
  render_pass_missing_color_skipped 640 480 false GameState.init
    ⟨none, none, none, false, []⟩ [] (by decide)

/-- Claim C8: DefineColorImage (and analogously DefineDepthImage) is
idempotent keyed by address: when the address is already cached the command
is a no-op; otherwise exactly one target sized to the current surface
dimensions is allocated and registered, and issuing the same command twice
yields exactly one cache entry for that address. -/
theorem define_image_idempotent (surfW surfH : Nat) (hasMi : Bool)
    (st : GameState) (A : Nat) :
    (A ∈ st.colorTextures →
      dispatch1 surfW surfH hasMi st (Cmd.defineColorImage A) = some (st, [])) ∧
    (A ∉ st.colorTextures →
      render_game surfW surfH hasMi st
          [Cmd.defineColorImage A, Cmd.defineColorImage A]
        = some ({ st with colorTextures := st.colorTextures ++ [A],
                          colorBindGroups := st.colorBindGroups ++ [A] },
                [Effect.createColorTarget A surfW surfH], []) ∧
      (st.colorTextures ++ [A]).count A = 1) ∧
    (A ∈ st.depthTextures →
      dispatch1 surfW surfH hasMi st (Cmd.defineDepthImage A) = some (st, [])) ∧
    (A ∉ st.depthTextures →
      render_game surfW surfH hasMi st
          [Cmd.defineDepthImage A, Cmd.defineDepthImage A]
        = some ({ st with depthTextures := st.depthTextures ++ [A],
                          depthBindGroups := st.depthBindGroups ++ [A] },
                [Effect.createDepthTarget A surfW surfH], []) ∧
      (st.depthTextures ++ [A]).count A = 1) := by
  refine ⟨fun hA => by simp only [dispatch1, if_pos hA], fun hA => ?_,
          fun hA => by simp only [dispatch1, if_pos hA], fun hA => ?_⟩
  · have h1 : dispatch1 surfW surfH hasMi st (Cmd.defineColorImage A)
        = some ({ st with colorTextures := st.colorTextures ++ [A],
                          colorBindGroups := st.colorBindGroups ++ [A] },
                [Effect.createColorTarget A surfW surfH]) := by
      simp only [dispatch1, if_neg hA]
    have hmem : A ∈ st.colorTextures ++ [A] := by simp
    have h2 : dispatch1 surfW surfH hasMi
        { st with colorTextures := st.colorTextures ++ [A],
                  colorBindGroups := st.colorBindGroups ++ [A] }
        (Cmd.defineColorImage A)
        = some ({ st with colorTextures := st.colorTextures ++ [A],
                          colorBindGroups := st.colorBindGroups ++ [A] }, []) := by
      simp only [dispatch1]
      rw [if_pos hmem]
    refine ⟨?_, by simp [List.count_append, List.count_eq_zero_of_not_mem hA]⟩
    rw [render_game_cons_of_dispatch surfW surfH hasMi st _ _ _ _ h1,
        if_neg (show Cmd.defineColorImage A ≠ Cmd.sync by simp),
        render_game_cons_of_dispatch surfW surfH hasMi _ _ _ _ _ h2,
        if_neg (show Cmd.defineColorImage A ≠ Cmd.sync by simp)]
    rfl
  · have h1 : dispatch1 surfW surfH hasMi st (Cmd.defineDepthImage A)
        = some ({ st with depthTextures := st.depthTextures ++ [A],
                          depthBindGroups := st.depthBindGroups ++ [A] },
                [Effect.createDepthTarget A surfW surfH]) := by
      simp only [dispatch1, if_neg hA]
    have hmem : A ∈ st.depthTextures ++ [A] := by simp
    have h2 : dispatch1 surfW surfH hasMi
        { st with depthTextures := st.depthTextures ++ [A],
                  depthBindGroups := st.depthBindGroups ++ [A] }
        (Cmd.defineDepthImage A)
        = some ({ st with depthTextures := st.depthTextures ++ [A],
                          depthBindGroups := st.depthBindGroups ++ [A] }, []) := by
      simp only [dispatch1]
      rw [if_pos hmem]
    refine ⟨?_, by simp [List.count_append, List.count_eq_zero_of_not_mem hA]⟩
    rw [render_game_cons_of_dispatch surfW surfH hasMi st _ _ _ _ h1,
        if_neg (show Cmd.defineDepthImage A ≠ Cmd.sync by simp),
        render_game_cons_of_dispatch surfW surfH hasMi _ _ _ _ _ h2,
        if_neg (show Cmd.defineDepthImage A ≠ Cmd.sync by simp)]
    rfl

theorem define_image_idempotent_witness :
    render_game 320 240 false GameState.init
        [Cmd.defineColorImage 4096, Cmd.defineColorImage 4096]
      = some ({ GameState.init with
                  colorTextures := GameState.init.colorTextures ++ [4096],
                  colorBindGroups := GameState.init.colorBindGroups ++ [4096] },
              [Effect.createColorTarget 4096 320 240], []) ∧
    (GameState.init.colorTextures ++ [4096]).count 4096 = 1 :=
  (define_image_idempotent 320 240 false GameState.init 4096).2.1 (by decide)

/-- Each dispatched command inserts into the texture map and the bind-group
map of a pair together and never removes an entry. -/
theorem dispatch1_maps_paired (surfW surfH : Nat) (hasMi : Bool)
    (st : GameState) (c : Cmd) (st' : GameState) (effs : List Effect)
    (h : dispatch1 surfW surfH hasMi st c = some (st', effs)) :
    (st.colorTextures = st.colorBindGroups →
      st'.colorTextures = st'.colorBindGroups) ∧
    (st.depthTextures = st.depthBindGroups →
      st'.depthTextures = st'.depthBindGroups) ∧
    (∃ ca, st'.colorTextures = st.colorTextures ++ ca) ∧
    (∃ da, st'.depthTextures = st.depthTextures ++ da) := by
  cases c with
  | defineColorImage addr =>
    simp only [dispatch1] at h
    split at h <;>
      (simp only [Option.some.injEq, Prod.mk.injEq] at h;
       obtain ⟨rfl, rfl⟩ := h)
    · exact ⟨fun hh => hh, fun hh => hh, ⟨[], by simp⟩, ⟨[], by simp⟩⟩
    · exact ⟨fun hh => by simp only; rw [hh], fun hh => hh,
             ⟨[addr], rfl⟩, ⟨[], by simp⟩⟩
  | defineDepthImage addr =>
    simp only [dispatch1] at h
    split at h <;>
      (simp only [Option.some.injEq, Prod.mk.injEq] at h;
       obtain ⟨rfl, rfl⟩ := h)
    · exact ⟨fun hh => hh, fun hh => hh, ⟨[], by simp⟩, ⟨[], by simp⟩⟩
    · exact ⟨fun hh => hh, fun hh => by simp only; rw [hh],
             ⟨[], by simp⟩, ⟨[addr], rfl⟩⟩
  | viewport d =>
    simp only [dispatch1, Option.some.injEq, Prod.mk.injEq] at h
    obtain ⟨rfl, rfl⟩ := h
    exact ⟨fun hh => hh, fun hh => hh, ⟨[], by simp⟩, ⟨[], by simp⟩⟩
  | vertexData n =>
    simp only [dispatch1, Option.some.injEq, Prod.mk.injEq] at h
    obtain ⟨rfl, rfl⟩ := h
    exact ⟨fun hh => hh, fun hh => hh, ⟨[], by simp⟩, ⟨[], by simp⟩⟩
  | indexData idx =>
    simp only [dispatch1, Option.some.injEq, Prod.mk.injEq] at h
    obtain ⟨rfl, rfl⟩ := h
    exact ⟨fun hh => hh, fun hh => hh, ⟨[], by simp⟩, ⟨[], by simp⟩⟩
  | matrixData n =>
    simp only [dispatch1, Option.some.injEq, Prod.mk.injEq] at h
    obtain ⟨rfl, rfl⟩ := h
    exact ⟨fun hh => hh, fun hh => hh, ⟨[], by simp⟩, ⟨[], by simp⟩⟩
  | renderPass rp =>
    simp only [dispatch1] at h
    split at h <;>
      (simp only [Option.some.injEq, Prod.mk.injEq] at h;
       obtain ⟨rfl, rfl⟩ := h) <;>
      exact ⟨fun hh => hh, fun hh => hh, ⟨[], by simp⟩, ⟨[], by simp⟩⟩
  | sync =>
    simp only [dispatch1, Option.some.injEq, Prod.mk.injEq] at h
    obtain ⟨rfl, rfl⟩ := h
    exact ⟨fun hh => hh, fun hh => hh, ⟨[], by simp⟩, ⟨[], by simp⟩⟩
  | noop =>
    simp only [dispatch1] at h
    exact absurd h (by simp)

/-- Claim C10: after every dispatched command sequence the color texture map
and the color bind-group map have identical key lists (likewise the depth
pair), entries are only ever added and never removed, so any address
resolvable by RenderPass through the texture map is also resolvable by the
display path through the bind-group map, and both maps of a pair report the
same size. -/
theorem texture_and_bindgroup_maps_agree (surfW surfH : Nat) (hasMi : Bool)
    (q : List Cmd) :
    ∀ (st st' : GameState) (effs : List Effect) (rem : List Cmd),
      st.colorTextures = st.colorBindGroups →
      st.depthTextures = st.depthBindGroups →
      render_game surfW surfH hasMi st q = some (st', effs, rem) →
      (st'.colorTextures = st'.colorBindGroups ∧
       st'.depthTextures = st'.depthBindGroups) ∧
      (∀ a, a ∈ st'.colorTextures ↔ a ∈ st'.colorBindGroups) ∧
      st'.colorTextures.length = st'.colorBindGroups.length ∧
      (∀ a, a ∈ st.colorTextures → a ∈ st'.colorTextures) ∧
      (∀ a, a ∈ st.depthTextures → a ∈ st'.depthTextures) := by
  induction q with
  | nil =>
    intro st st' effs rem hc hd h
    simp only [render_game, Option.some.injEq, Prod.mk.injEq] at h
    obtain ⟨rfl, rfl, rfl⟩ := h
    exact ⟨⟨hc, hd⟩, fun a => by rw [hc], by rw [hc],
           fun a ha => ha, fun a ha => ha⟩
  | cons c q ih =>
    intro st st' effs rem hc hd h
    cases hdisp : dispatch1 surfW surfH hasMi st c with
    | none =>
      rw [render_game, hdisp] at h
      exact absurd h (by simp)
    | some p =>
      obtain ⟨st1, effs1⟩ := p
      rw [render_game_cons_of_dispatch surfW surfH hasMi st c st1 effs1 q hdisp]
        at h
      obtain ⟨hpc, hpd, ⟨ca, hca⟩, ⟨da, hda⟩⟩ :=
        dispatch1_maps_paired surfW surfH hasMi st c st1 effs1 hdisp
      by_cases hsync : c = Cmd.sync
      · rw [if_pos hsync] at h
        simp only [Option.some.injEq, Prod.mk.injEq] at h
        obtain ⟨rfl, rfl, rfl⟩ := h
        have hc1 := hpc hc
        have hd1 := hpd hd
        refine ⟨⟨hc1, hd1⟩, fun a => by rw [hc1], by rw [hc1], ?_, ?_⟩
        · intro a ha
          rw [hca]
          exact List.mem_append_left _ ha
        · intro a ha
          rw [hda]
          exact List.mem_append_left _ ha
      · rw [if_neg hsync] at h
        cases hrec : render_game surfW surfH hasMi st1 q with
        | none =>
          rw [hrec] at h
          exact absurd h (by simp)
        | some r =>
          obtain ⟨st2, effs2, rem2⟩ := r
          rw [hrec] at h
          simp only [Option.some.injEq, Prod.mk.injEq] at h
          obtain ⟨rfl, rfl, rfl⟩ := h
          obtain ⟨⟨hc2, hd2⟩, hiff, hlen, hmc, hmd⟩ :=
            ih st1 st2 effs2 rem2 (hpc hc) (hpd hd) hrec
          refine ⟨⟨hc2, hd2⟩, hiff, hlen, ?_, ?_⟩
          · intro a ha
            refine hmc a ?_
            rw [hca]
            exact List.mem_append_left _ ha
          · intro a ha
            refine hmd a ?_
            rw [hda]
            exact List.mem_append_left _ ha

theorem texture_and_bindgroup_maps_agree_witness :
    ((GameState.mk [10] [10] [] [] Cmd.noop 1 0 0).colorTextures
        = (GameState.mk [10] [10] [] [] Cmd.noop 1 0 0).colorBindGroups ∧
     (GameState.mk [10] [10] [] [] Cmd.noop 1 0 0).depthTextures
        = (GameState.mk [10] [10] [] [] Cmd.noop 1 0 0).depthBindGroups) ∧
    (GameState.mk [10] [10] [] [] Cmd.noop 1 0 0).colorTextures.length
      = (GameState.mk [10] [10] [] [] Cmd.noop 1 0 0).colorBindGroups.length :=
  let h := texture_and_bindgroup_maps_agree 640 480 false
    [Cmd.defineColorImage 10, Cmd.sync] GameState.init
    (GameState.mk [10] [10] [] [] Cmd.noop 1 0 0)
    [Effect.createColorTarget 10 640 480] [] rfl rfl rfl
  ⟨h.1, h.2.2.1⟩

end N64Render
